import Mathlib

/-!
Verification of the yamcp-ui-dockerized validation harness.

This file embeds the control logic of `src/validate.py` (the `MCPHubValidator`
check runner, its SSE streaming check, its process-cleanup check, the report
formatter and the exit-code logic of `main`) and of the pytest helpers in
`src/test-mcp-server/test_helpers.py` and
`src/test-mcp-server/test_smolagent_openai_context7.py`, and proves the
behavioural properties stated about them.

External effects (Docker introspection, HTTP requests, SSE transport, the
pytest runtime) are modelled by explicit inputs: each check body is an
`Except String Bool` (a returned verdict, or a raised exception carrying its
message), an SSE stream is the list of events it yields before closing, and
the pytest attribute store is a `String → Bool` presence map.
-/

namespace Spec2Proof

/-! ## Definitions

### Substring matching (Python's `in` operator on strings) -/

/-- Contiguous-sublist test on character lists: `pat` occurs inside `s`. -/
def infixCheck (pat : List Char) : List Char → Bool
  | [] => pat.isEmpty
  | c :: rest => pat.isPrefixOf (c :: rest) || infixCheck pat rest

/-- Python's `pat in s` substring test. -/
def strContains (s pat : String) : Bool :=
  infixCheck pat.data s.data

/-! ### Embedding of `src/validate.py` -/

/-- Outcome of one check body: the returned verdict, or a raised exception
carrying its message (`validate.py` lines 318-323 catch all exceptions). -/
abbrev CheckOutcome := Except String Bool

/-- The five registered check names, in registration order
(`validate.py` lines 38-44 and 310-316 use the same order). -/
def checkNames : List String :=
  ["container_health", "api_functional", "sse_streaming", "hot_reloading", "process_cleanup"]

/-- The initial results dict built in `MCPHubValidator.__init__`:
every registered check maps to `False`. -/
def initResults : List (String × Bool) :=
  checkNames.map (fun n => (n, false))

/-- Python dict assignment `results[name] = v` on an existing key:
the entry for `name` is overwritten in place, insertion order is kept. -/
def setResult (rs : List (String × Bool)) (name : String) (v : Bool) : List (String × Bool) :=
  rs.map (fun p => if p.1 = name then (p.1, v) else p)

/-- The verdict recorded by the loop body: the returned bool on normal return,
`False` when the check body raised (`except` branch). -/
def outcomeValue : CheckOutcome → Bool
  | Except.ok b => b
  | Except.error _ => false

/-- The log lines emitted by the loop body: the `except` branch logs
`"Validation {name} crashed: {e}"`; a normal return logs nothing here. -/
def outcomeLog (name : String) : CheckOutcome → List String
  | Except.ok _ => []
  | Except.error e => ["Validation " ++ name ++ " crashed: " ++ e]

/-- State threaded through the check loop of `run_validation`:
the results dict, the trace of dict writes performed by the loop,
and the log lines emitted by the loop. -/
structure LoopState where
  results : List (String × Bool)
  writes : List (String × Bool)
  log : List String

/-- The check loop of `run_validation` (lines 318-323): for each
`(name, validator)` pair in order, run the body, record the verdict
(converting a raised exception into `False` plus a log line), and continue. -/
def runChecks : List (String × CheckOutcome) → LoopState → LoopState
  | [], st => st
  | (name, outcome) :: rest, st =>
      runChecks rest
        { results := setResult st.results name (outcomeValue outcome)
          writes := st.writes ++ [(name, outcomeValue outcome)]
          log := st.log ++ outcomeLog name outcome }

/-- Python `str.title()` on a character list: a cased character after a
non-alphabetic one is uppercased, every other cased character lowercased. -/
def titleChars : List Char → Bool → List Char
  | [], _ => []
  | c :: rest, prevAlpha =>
      (if prevAlpha then c.toLower else c.toUpper) :: titleChars rest c.isAlpha

/-- `check.replace('_', ' ').title()` from `_report_results` line 342. -/
def displayName (name : String) : String :=
  String.mk (titleChars (name.data.map (fun c => if c = '_' then ' ' else c)) false)

/-- The verdict text of a report line (line 341). -/
def statusStr (b : Bool) : String :=
  if b then "✅ PASS" else "❌ FAIL"

/-- `passed` counter of `_report_results`. -/
def countPassed (rs : List (String × Bool)) : Nat :=
  (rs.filter (fun p => p.2)).length

/-- `failed` counter of `_report_results`. -/
def countFailed (rs : List (String × Bool)) : Nat :=
  (rs.filter (fun p => !p.2)).length

/-- A separator line `c * 50`. -/
def sepLine (c : Char) : String :=
  String.mk (List.replicate 50 c)

/-- The report rendered by `_report_results` (lines 331-355), as a list of
logged lines: header, one line per results entry in order, then the totals
line and the overall verdict line. -/
def renderReport (rs : List (String × Bool)) : List String :=
  [sepLine '=', "VALIDATION RESULTS", sepLine '='] ++
  rs.map (fun p => displayName p.1 ++ ": " ++ statusStr p.2) ++
  [sepLine '-',
   "Total: " ++ toString (countPassed rs) ++ " passed, " ++
     toString (countFailed rs) ++ " failed"] ++
  [if countFailed rs = 0 then "🎉 ALL VALIDATIONS PASSED!" else "⚠️ SOME VALIDATIONS FAILED!"]

/-- The `validations` list of `run_validation` lines 310-316: the registered
check names paired with their bodies, `env` giving each body's outcome. -/
def validations (env : String → CheckOutcome) : List (String × CheckOutcome) :=
  checkNames.map (fun n => (n, env n))

/-- Observable result of one call to `run_validation`. -/
structure RunResult where
  results : List (String × Bool)
  writes : List (String × Bool)
  log : List String
  report : Option (List String)
  success : Bool

/-- `MCPHubValidator.run_validation` (lines 300-329): if the container is not
found the function returns `False` at once, before the check loop and before
`_report_results`; otherwise it runs every check, reports, and returns
`all(results.values())`. -/
def run_validation (containerFound : Bool) (env : String → CheckOutcome) : RunResult :=
  if containerFound then
    let st := runChecks (validations env) ⟨initResults, [], []⟩
    { results := st.results
      writes := st.writes
      log := st.log
      report := some (renderReport st.results)
      success := st.results.all (fun p => p.2) }
  else
    { results := initResults, writes := [], log := [], report := none, success := false }

/-- The exit code chosen by `main` (lines 357-363):
`0` when `run_validation` returned `True`, else `1`. -/
def mainExitCode (containerFound : Bool) (env : String → CheckOutcome) : Nat :=
  if (run_validation containerFound env).success then 0 else 1

/-! ### Embedding of `validate_sse_streaming` (validate.py lines 125-176) -/

/-- One server-sent event as yielded by `sseclient`. -/
structure SSEEvent where
  event : String
  data : String
deriving DecidableEq

/-- The event loop of `validate_sse_streaming` (lines 150-162): count events,
remember whether any data payload contained `VALIDATION_TEST`, and break after
the tenth event or on the first hit; the final flag is the verdict. -/
def sseLoop : List SSEEvent → Nat → Bool → Bool
  | [], _, found => found
  | ev :: rest, received, found =>
      let received2 := received + 1
      let found2 := found || strContains ev.data "VALIDATION_TEST"
      if 10 ≤ received2 ∨ found2 = true then found2 else sseLoop rest received2 found2

/-- `validate_sse_streaming` after the request succeeded: `status` and
`contentType` come from the HTTP response, `events` is the stream content
until the connection closes. Status and content-type are gated first
(lines 137-146), then the event loop decides. -/
def validate_sse_streaming (status : Nat) (contentType : String)
    (events : List SSEEvent) : Bool :=
  if status ≠ 200 then false
  else if !(strContains contentType "text/event-stream") then false
  else sseLoop events 0 false

/-! ### Embedding of `validate_process_cleanup` (validate.py lines 227-268) -/

/-- `validate_process_cleanup` given the two process-count reads: `none`
models a read whose `int()` parse raised (caught by the outer handler, which
returns `False`); with both counts available the verdict is the comparison
`final_count > initial_count + 1` on line 259. -/
def validate_process_cleanup (initialRead finalRead : Option Int) : Bool :=
  match initialRead, finalRead with
  | some i, some f => if f > i + 1 then false else true
  | _, _ => false

/-! ### Embedding of the pytest helpers
(`test_helpers.py`, `test_smolagent_openai_context7.py`) -/

/-- Outcome of a pytest test as reported by the runner. -/
inductive TestOutcome where
  | passed
  | failed
  | skipped
deriving DecidableEq

/-- The control-flow signals pytest helpers raise: `pytest.skip(msg)` and
`pytest.fail(msg)`. -/
inductive Signal where
  | skipSig : String → Signal
  | failSig : String → Signal
deriving DecidableEq

/-- `skip_if_prerequisite_failed` (test_helpers.py lines 12-15): raise the
skip signal unless the pytest attribute is present. `pytestAttrs` models
`hasattr(pytest, ·)`. -/
def skip_if_prerequisite_failed (pytestAttrs : String → Bool) (attr : String) :
    Except Signal Unit :=
  if pytestAttrs attr then Except.ok ()
  else Except.error (Signal.skipSig ("Skipping - prerequisite " ++ attr ++ " test failed"))

/-- A test body execution: the signal/return it ends with, and how many
network calls it performed. -/
structure TestExec where
  body : Except Signal Unit
  networkCalls : Nat

/-- `TestContext7Integration.test_resolve_library_id_tool_structure`
(test_smolagent_openai_context7.py lines 74-90): the body first calls
`skip_if_prerequisite_failed('tool_names')`; only if that returns does the
remainder (`rest`: the MCP connection and the assertions) execute. -/
def test_resolve_library_id_tool_structure (pytestAttrs : String → Bool)
    (rest : TestExec) : TestExec :=
  match skip_if_prerequisite_failed pytestAttrs "tool_names" with
  | Except.error s => { body := Except.error s, networkCalls := 0 }
  | Except.ok _ => rest

/-- How the pytest runner classifies a finished body: a raised skip signal is
a skip outcome, a raised fail signal a failure, a normal return a pass. -/
def pytestOutcome (t : TestExec) : TestOutcome :=
  match t.body with
  | Except.ok _ => TestOutcome.passed
  | Except.error (Signal.skipSig _) => TestOutcome.skipped
  | Except.error (Signal.failSig _) => TestOutcome.failed

/-- Python `str.lower()` (ASCII model, matching `Char.toLower`). -/
def strLower (s : String) : String :=
  String.mk (s.data.map Char.toLower)

/-- `assert_library_in_result` (test_helpers.py lines 26-37) as a pass/fail
verdict: `result is None` fails; otherwise the result string is lowercased
once, the lowercased library name must occur in it, and when `expected_terms`
is non-empty at least one term (matched verbatim, not lowercased) must occur
in the lowercased result. -/
def assert_library_in_result (result : Option String) (library_name : String)
    (expected_terms : List String) : Bool :=
  match result with
  | none => false
  | some r =>
      let result_str := strLower r
      if strContains result_str (strLower library_name) then
        if expected_terms.isEmpty then true
        else !((expected_terms.filter (fun t => strContains result_str t)).isEmpty)
      else false

/-- One character is another with its case changed (or unchanged). -/
def caseToggleB (c d : Char) : Bool :=
  d == c || d == c.toUpper || d == c.toLower

/-- `s` is `r` with the case of any subset of its characters changed. -/
def caseToggledB (r s : String) : Bool :=
  (r.data.length == s.data.length) &&
    (r.data.zip s.data).all (fun p => caseToggleB p.1 p.2)

/-- Python `s.startswith(pre)`. -/
def strStartsWith (s pre : String) : Bool :=
  pre.data.isPrefixOf s.data

/-- `TestContext7Integration.test_smoke_openai_api_key`
(test_smolagent_openai_context7.py lines 48-52): `none` models an unset
`OPENAI_API_KEY`; the three asserts require a truthy value, the `sk-` prefix,
and length strictly above 20. -/
def test_smoke_openai_api_key (key : Option String) : Bool :=
  match key with
  | none => false
  | some k =>
      if k = "" then false
      else if !(strStartsWith k "sk-") then false
      else decide (20 < k.length)

/-! ## Library-level helper lemmas -/

theorem toNat_ofNat_valid (n : Nat) (h : n.isValidChar) : (Char.ofNat n).toNat = n := by
  rw [Char.ofNat, dif_pos h]
  rfl

/-- Lowercasing is idempotent on the ASCII model. -/
theorem char_toLower_toLower (c : Char) : c.toLower.toLower = c.toLower := by
  simp only [Char.toLower]
  by_cases h : c.toNat ≥ 65 ∧ c.toNat ≤ 90
  · rw [if_pos h]
    have hv : (c.toNat + 32).isValidChar := Or.inl (by omega)
    have ht : (Char.ofNat (c.toNat + 32)).toNat = c.toNat + 32 := toNat_ofNat_valid _ hv
    rw [if_neg (by rw [ht]; omega)]
  · rw [if_neg h, if_neg h]

/-- Lowercasing collapses an uppercased character back to its lowercase. -/
theorem char_toLower_toUpper (c : Char) : c.toUpper.toLower = c.toLower := by
  by_cases h : c.toNat ≥ 97 ∧ c.toNat ≤ 122
  · have hup : c.toUpper = Char.ofNat (c.toNat - 32) := by
      simp only [Char.toUpper]
      rw [if_pos h]
    have hv : (c.toNat - 32).isValidChar := Or.inl (by omega)
    have ht : (Char.ofNat (c.toNat - 32)).toNat = c.toNat - 32 := toNat_ofNat_valid _ hv
    have hL : c.toLower = c := by
      simp only [Char.toLower]
      rw [if_neg (by omega)]
    rw [hup, hL]
    simp only [Char.toLower, ht]
    rw [if_pos (And.intro (by omega) (by omega))]
    rw [show c.toNat - 32 + 32 = c.toNat by omega]
    exact Char.ofNat_toNat c
  · have hup : c.toUpper = c := by
      simp only [Char.toUpper]
      rw [if_neg h]
    rw [hup]

/-- A case-toggled character lowercases to the same character. -/
theorem caseToggle_toLower (c d : Char) (h : caseToggleB c d = true) :
    d.toLower = c.toLower := by
  simp only [caseToggleB, Bool.or_eq_true, beq_iff_eq] at h
  rcases h with (rfl | rfl) | rfl
  · rfl
  · exact char_toLower_toUpper c
  · exact char_toLower_toLower c

/-- Changing the case of any characters of a list leaves its lowercase
image unchanged. -/
theorem toggled_map_toLower (r : List Char) :
    ∀ s : List Char,
      ((r.length == s.length) && (r.zip s).all (fun p => caseToggleB p.1 p.2)) = true →
      s.map Char.toLower = r.map Char.toLower := by
  induction r with
  | nil =>
    intro s h
    cases s with
    | nil => rfl
    | cons d tail => simp at h
  | cons c rest ih =>
    intro s h
    cases s with
    | nil => simp at h
    | cons d tail =>
      rw [Bool.and_eq_true] at h
      obtain ⟨hlen, hall⟩ := h
      rw [List.zip_cons_cons, List.all_cons, Bool.and_eq_true] at hall
      obtain ⟨hcd, htail⟩ := hall
      have hlen2 : rest.length = tail.length := by simpa using hlen
      have harg : ((rest.length == tail.length) &&
          (rest.zip tail).all (fun p => caseToggleB p.1 p.2)) = true := by
        rw [Bool.and_eq_true]
        exact And.intro (beq_iff_eq.2 hlen2) htail
      simp only [List.map_cons]
      rw [caseToggle_toLower c d hcd, ih tail harg]

/-- Changing the case of any characters of a string leaves `strLower`
unchanged. -/
theorem strLower_eq_of_toggled (r s : String) (h : caseToggledB r s = true) :
    strLower s = strLower r := by
  simp only [strLower]
  exact congrArg String.mk (toggled_map_toLower r.data s.data h)

/-- `assert_library_in_result` reads its result argument only through its
lowercase image. -/
theorem assert_congr_strLower (r r2 lib : String) (terms : List String)
    (h : strLower r = strLower r2) :
    assert_library_in_result (some r) lib terms =
      assert_library_in_result (some r2) lib terms := by
  simp only [assert_library_in_result]
  rw [h]

theorem isPrefixOf_self (l : List Char) : l.isPrefixOf l = true := by
  induction l with
  | nil => rfl
  | cons c rest ih => simp [List.isPrefixOf, ih]

theorem infixCheck_append_right (a b : List Char) : infixCheck b (a ++ b) = true := by
  induction a with
  | nil =>
    cases b with
    | nil => rfl
    | cons c rest => simp [infixCheck, isPrefixOf_self]
  | cons c rest ih => simp [infixCheck, ih]

/-- A string contains its own suffix: `strContains (s ++ t) t = true`. -/
theorem strContains_append_right (s t : String) : strContains (s ++ t) t = true := by
  simp only [strContains, String.data_append]
  exact infixCheck_append_right s.data t.data

/-! ## Lemmas about the check loop -/

/-- After a complete run with the container found, the results dict holds, in
registration order, each check name mapped to the verdict of its body. -/
theorem run_results_eq (env : String → CheckOutcome) :
    (run_validation true env).results =
      [("container_health", outcomeValue (env "container_health")),
       ("api_functional", outcomeValue (env "api_functional")),
       ("sse_streaming", outcomeValue (env "sse_streaming")),
       ("hot_reloading", outcomeValue (env "hot_reloading")),
       ("process_cleanup", outcomeValue (env "process_cleanup"))] := rfl

/-- The loop performs exactly one dict write per registered check, in
registration order. -/
theorem run_writes_eq (env : String → CheckOutcome) :
    (run_validation true env).writes =
      [("container_health", outcomeValue (env "container_health")),
       ("api_functional", outcomeValue (env "api_functional")),
       ("sse_streaming", outcomeValue (env "sse_streaming")),
       ("hot_reloading", outcomeValue (env "hot_reloading")),
       ("process_cleanup", outcomeValue (env "process_cleanup"))] := rfl

theorem run_report_eq (env : String → CheckOutcome) :
    (run_validation true env).report =
      some (renderReport (run_validation true env).results) := rfl

theorem run_success_eq (env : String → CheckOutcome) :
    (run_validation true env).success =
      (run_validation true env).results.all (fun p => p.2) := rfl

/-- The two counters of `_report_results` always sum to the number of entries. -/
theorem countPassed_add_countFailed (rs : List (String × Bool)) :
    countPassed rs + countFailed rs = rs.length := by
  induction rs with
  | nil => rfl
  | cons p t ih =>
    cases hb : p.2 <;>
      simp [countPassed, countFailed, List.filter, hb] at ih ⊢ <;> omega

/-- `failed == 0` exactly when every recorded verdict is `True`. -/
theorem countFailed_eq_zero_iff (rs : List (String × Bool)) :
    countFailed rs = 0 ↔ rs.all (fun p => p.2) = true := by
  induction rs with
  | nil => simp [countFailed]
  | cons p t ih =>
    cases hb : p.2 <;> simp [countFailed, List.filter, hb] at ih ⊢

/-- Anything already in the log stays in the log after running more checks. -/
theorem runChecks_log_mono (checks : List (String × CheckOutcome)) (st : LoopState)
    (x : String) (hx : x ∈ st.log) : x ∈ (runChecks checks st).log := by
  induction checks generalizing st with
  | nil => exact hx
  | cons c rest ih =>
    obtain ⟨name, outcome⟩ := c
    exact ih _ (by simp [hx])

/-- A check body that raised leaves its crash line in the loop log. -/
theorem runChecks_log_of_error (checks : List (String × CheckOutcome)) (st : LoopState)
    (n e : String) (hmem : (n, Except.error e) ∈ checks) :
    ("Validation " ++ n ++ " crashed: " ++ e) ∈ (runChecks checks st).log := by
  induction checks generalizing st with
  | nil => cases hmem
  | cons c rest ih =>
    obtain ⟨name, outcome⟩ := c
    rcases List.mem_cons.1 hmem with heq | hrest
    · cases heq
      simp only [runChecks]
      apply runChecks_log_mono
      simp [outcomeLog]
    · exact ih _ hrest

/-- A registered check whose body raised ends up recorded as `False` in the
results dict. -/
theorem results_lookup_of_error (env : String → CheckOutcome) (n e : String)
    (hmem : n ∈ checkNames) (herr : env n = Except.error e) :
    (run_validation true env).results.lookup n = some false := by
  rw [run_results_eq]
  simp only [checkNames, List.mem_cons, List.not_mem_nil, or_false] at hmem
  rcases hmem with rfl | rfl | rfl | rfl | rfl <;> rw [herr] <;> rfl

/-! ## Claim theorems -/

/-- C1: for every completed validation run (container found), the report
counters satisfy `passed + failed = 5` (the number of registered checks), and
the process exit code of `validate.py` is `0` iff `failed = 0`. -/
theorem C1_report_counts_and_exit_code (env : String → CheckOutcome) :
    countPassed (run_validation true env).results +
      countFailed (run_validation true env).results = 5
    ∧ (mainExitCode true env = 0 ↔ countFailed (run_validation true env).results = 0) := by
  constructor
  · rw [countPassed_add_countFailed, run_results_eq]
    rfl
  · rw [countFailed_eq_zero_iff, ← run_success_eq, mainExitCode]
    cases h : (run_validation true env).success <;> simp [h]

/-- C2 counterexample: the claim says a final report is emitted on every
execution of `run_validation`, regardless of whether the container lookup
succeeded; but when `find_container` fails, `run_validation` returns `False`
at line 307 before `_report_results` is ever called, so no report exists. -/
theorem C2_counterexample :
    (run_validation false (fun _ => Except.ok true)).report = none
    ∧ (run_validation false (fun _ => Except.ok true)).success = false :=
  ⟨rfl, rfl⟩

/-- C2 amended: whenever the container lookup succeeds, a final report is
emitted before `run_validation` returns, rendered from a results record that
carries exactly the five registered checks in registration order, each with
its pass/fail verdict — regardless of individual check outcomes; when the
container lookup fails, the function returns `False` with no report. -/
theorem C2_report_lists_all_checks (env : String → CheckOutcome) :
    (run_validation true env).report =
      some (renderReport (run_validation true env).results)
    ∧ (run_validation true env).results.map Prod.fst = checkNames := by
  refine ⟨rfl, ?_⟩
  rw [run_results_eq]
  rfl

/-- C3: a registered check whose body raises is recorded as failed
(`results[name] = False`), every subsequent check still executes (the loop
writes exactly one verdict per registered check, in order), and no exception
escapes `run_validation` (the embedding is a total function). -/
theorem C3_crash_recorded_failed_and_rest_execute (env : String → CheckOutcome)
    (n e : String) (hmem : n ∈ checkNames) (herr : env n = Except.error e) :
    (run_validation true env).results.lookup n = some false
    ∧ (run_validation true env).writes.map Prod.fst = checkNames := by
  refine ⟨results_lookup_of_error env n e hmem herr, ?_⟩
  rw [run_writes_eq]
  rfl

/-- Witness for C3 at a concrete run: the third check raises `"boom"`. -/
theorem C3_witness :
    (run_validation true
        (fun k => if k = "sse_streaming" then Except.error "boom" else Except.ok true)).results.lookup
        "sse_streaming" = some false
    ∧ (run_validation true
        (fun k => if k = "sse_streaming" then Except.error "boom" else Except.ok true)).writes.map
        Prod.fst = checkNames :=
  C3_crash_recorded_failed_and_rest_execute
    (fun k => if k = "sse_streaming" then Except.error "boom" else Except.ok true)
    "sse_streaming" "boom" (by decide) (by rfl)

/-- C4 counterexample: the claim says the error message of a raised check is
retained as a detail string in the results record the report is rendered
from; but when `api_functional` raises `"boom2"`, its recorded entry is the
bare boolean `False` and no line of the rendered report contains `"boom2"` —
the message survives only in the run log, not in the results record. -/
theorem C4_counterexample :
    ((run_validation true
        (fun k => if k = "api_functional" then Except.error "boom2" else Except.ok true)).report.getD
        []).all (fun line => !(strContains line "boom2")) = true
    ∧ (run_validation true
        (fun k => if k = "api_functional" then Except.error "boom2" else Except.ok true)).results.lookup
        "api_functional" = some false := by
  decide

/-- C4 amended: for every registered check whose body raises, the check is
recorded as failed in the results record, and the error message is captured
at catch time in the run log as the non-empty line
`"Validation {name} crashed: {e}"`, which contains the message; the results
record itself (from which the report is rendered) retains only the boolean
verdict. -/
theorem C4_crash_detail_in_log (env : String → CheckOutcome) (n e : String)
    (hmem : n ∈ checkNames) (herr : env n = Except.error e) :
    (run_validation true env).results.lookup n = some false
    ∧ ("Validation " ++ n ++ " crashed: " ++ e) ∈ (run_validation true env).log
    ∧ strContains ("Validation " ++ n ++ " crashed: " ++ e) e = true := by
  refine ⟨results_lookup_of_error env n e hmem herr, ?_, strContains_append_right _ e⟩
  have hv : (n, Except.error e) ∈ validations env := by
    rw [← herr]
    exact List.mem_map.2 ⟨n, hmem, rfl⟩
  exact runChecks_log_of_error _ _ _ _ hv

/-- Witness for C4 at a concrete run: the fourth check raises `"kaboom"`. -/
theorem C4_witness :
    (run_validation true
        (fun k => if k = "hot_reloading" then Except.error "kaboom" else Except.ok false)).results.lookup
        "hot_reloading" = some false
    ∧ ("Validation " ++ "hot_reloading" ++ " crashed: " ++ "kaboom") ∈
        (run_validation true
          (fun k => if k = "hot_reloading" then Except.error "kaboom" else Except.ok false)).log
    ∧ strContains ("Validation " ++ "hot_reloading" ++ " crashed: " ++ "kaboom") "kaboom" = true :=
  C4_crash_detail_in_log
    (fun k => if k = "hot_reloading" then Except.error "kaboom" else Except.ok false)
    "hot_reloading" "kaboom" (by decide) (by rfl)

/-- C6: after a run with the container found, the results record has exactly
one entry per registered check name — `container_health`, `api_functional`,
`sse_streaming`, `hot_reloading`, `process_cleanup` — in registration order,
and the loop writes each entry exactly once (its write trace is exactly the
registered names, which are pairwise distinct). -/
theorem C6_one_entry_per_check (env : String → CheckOutcome) :
    (run_validation true env).results.map Prod.fst = checkNames
    ∧ (run_validation true env).writes.map Prod.fst = checkNames
    ∧ checkNames.Nodup := by
  refine ⟨?_, ?_, by decide⟩
  · rw [run_results_eq]
    rfl
  · rw [run_writes_eq]
    rfl

/-- If no event of the stream carries the marker, the SSE loop ends `False`
(it breaks at the tenth event, or the stream closes first). -/
theorem sseLoop_of_all_miss (events : List SSEEvent) (r : Nat)
    (h : ∀ ev ∈ events, strContains ev.data "VALIDATION_TEST" = false) :
    sseLoop events r false = false := by
  induction events generalizing r with
  | nil => rfl
  | cons ev rest ih =>
    have hev := h ev (List.mem_cons_self ev rest)
    by_cases h10 : 10 ≤ r + 1
    · simp [sseLoop, hev, h10]
    · simp only [sseLoop, hev, Bool.or_false]
      rw [if_neg (by simp [h10])]
      exact ih (r + 1) (fun x hx => h x (List.mem_cons_of_mem ev hx))

/-- If some event among those the loop still inspects (the first `10 - r`)
carries the marker, the SSE loop ends `True`. -/
theorem sseLoop_finds (events : List SSEEvent) (r : Nat) (hr : r < 10)
    (h : ∃ ev ∈ events.take (10 - r), strContains ev.data "VALIDATION_TEST" = true) :
    sseLoop events r false = true := by
  induction events generalizing r with
  | nil => simp at h
  | cons ev rest ih =>
    obtain ⟨w, hw, hcw⟩ := h
    by_cases hev : strContains ev.data "VALIDATION_TEST" = true
    · simp [sseLoop, hev]
    · have htake : (10 : Nat) - r = (10 - r - 1) + 1 := by omega
      rw [htake, List.take_succ_cons] at hw
      rcases List.mem_cons.1 hw with rfl | hw2
      · exact absurd hcw hev
      · have hpos : 0 < 10 - r - 1 := by
          rcases Nat.eq_zero_or_pos (10 - r - 1) with hz | hp
          · rw [hz] at hw2
            simp at hw2
          · exact hp
        have hr2 : r + 1 < 10 := by omega
        simp only [sseLoop, hev, Bool.or_false]
        rw [if_neg (by simp; omega)]
        exact ih (r + 1) hr2 ⟨w, by rw [show (10 : Nat) - (r + 1) = 10 - r - 1 by omega]; exact hw2, hcw⟩

/-- C5: for an SSE response with status 200 whose content type contains
`text/event-stream`, the streaming check returns `True` when some event among
the first 10 yielded carries `VALIDATION_TEST` in its data, and `False` when
the stream yields 10 or more events none of which carries it. -/
theorem C5_sse_streaming_first_ten (contentType : String) (events : List SSEEvent)
    (hct : strContains contentType "text/event-stream" = true) :
    ((∃ ev ∈ events.take 10, strContains ev.data "VALIDATION_TEST" = true) →
        validate_sse_streaming 200 contentType events = true)
    ∧ (10 ≤ events.length →
        (∀ ev ∈ events, strContains ev.data "VALIDATION_TEST" = false) →
        validate_sse_streaming 200 contentType events = false) := by
  constructor
  · intro h
    simp only [validate_sse_streaming, hct]
    norm_num
    exact sseLoop_finds events 0 (by omega) h
  · intro _ h
    simp only [validate_sse_streaming, hct]
    norm_num
    exact sseLoop_of_all_miss events 0 h

/-- Witness for C5 at a concrete stream: one event carrying the marker among
the first ten, and a response with the right status and content type. -/
theorem C5_witness :
    validate_sse_streaming 200 "text/event-stream; charset=utf-8"
      [⟨"message", "starting"⟩, ⟨"message", "run VALIDATION_TEST now"⟩] = true :=
  (C5_sse_streaming_first_ten "text/event-stream; charset=utf-8"
      [⟨"message", "starting"⟩, ⟨"message", "run VALIDATION_TEST now"⟩]
      (by decide)).1
    ⟨⟨"message", "run VALIDATION_TEST now"⟩, by decide, by decide⟩

/-- C7: when the pytest attribute `tool_names` has not been set, a test whose
body begins with `skip_if_prerequisite_failed('tool_names')` raises the skip
signal before any further statement of its body runs: whatever the remainder
of the test would have done, the outcome is a skip (not a failure, not a
pass) and zero network calls are performed. -/
theorem C7_prerequisite_skip (pytestAttrs : String → Bool) (rest : TestExec)
    (hattr : pytestAttrs "tool_names" = false) :
    pytestOutcome (test_resolve_library_id_tool_structure pytestAttrs rest) =
      TestOutcome.skipped
    ∧ (test_resolve_library_id_tool_structure pytestAttrs rest).networkCalls = 0 := by
  have hskip : skip_if_prerequisite_failed pytestAttrs "tool_names" =
      Except.error (Signal.skipSig
        ("Skipping - prerequisite " ++ "tool_names" ++ " test failed")) := by
    simp [skip_if_prerequisite_failed, hattr]
  constructor
  · simp [test_resolve_library_id_tool_structure, hskip, pytestOutcome]
  · simp [test_resolve_library_id_tool_structure, hskip]

/-- Witness for C7 at a concrete state: no attributes set, a remainder that
would have failed after three network calls; the guarded test still skips
with zero network calls. -/
theorem C7_witness :
    pytestOutcome (test_resolve_library_id_tool_structure (fun _ => false)
        ⟨Except.error (Signal.failSig "assertion"), 3⟩) = TestOutcome.skipped
    ∧ (test_resolve_library_id_tool_structure (fun _ => false)
        ⟨Except.error (Signal.failSig "assertion"), 3⟩).networkCalls = 0 :=
  C7_prerequisite_skip (fun _ => false)
    ⟨Except.error (Signal.failSig "assertion"), 3⟩ rfl

/-- C8 counterexample: the claim says `assert_library_in_result` succeeds
whenever the library name occurs as a substring of the result together with
at least one expected term; here `"React"` occurs verbatim in the result and
is itself the expected term, yet the assertion fails — expected terms are
matched verbatim against the lowercased result, so a term containing an
uppercase character never matches. -/
theorem C8_counterexample :
    strContains "use React please" "React" = true
    ∧ assert_library_in_result (some "use React please") "React" ["React"] = false := by
  decide

/-- C8 amended: the verdict of `assert_library_in_result` is unchanged when
the case of any character of the result is changed, and it succeeds whenever
the lowercased library name occurs as a substring of the lowercased result
together with at least one expected term occurring verbatim as a substring of
the lowercased result — presence suffices, equality is not required. -/
theorem C8_case_insensitive_presence (r r2 lib : String) (terms : List String) :
    (caseToggledB r r2 = true →
      assert_library_in_result (some r) lib terms =
        assert_library_in_result (some r2) lib terms)
    ∧ (strContains (strLower r) (strLower lib) = true →
       (∃ t ∈ terms, strContains (strLower r) t = true) →
       assert_library_in_result (some r) lib terms = true) := by
  constructor
  · intro htog
    exact (assert_congr_strLower r2 r lib terms (strLower_eq_of_toggled r r2 htog)).symm
  · intro hlib hterm
    obtain ⟨t, ht, hct⟩ := hterm
    simp only [assert_library_in_result]
    rw [if_pos hlib]
    cases terms with
    | nil => cases ht
    | cons t0 ts =>
      rw [if_neg (by simp)]
      have hmem : t ∈ (t0 :: ts).filter (fun u => strContains (strLower r) u) :=
        List.mem_filter.2 (And.intro ht hct)
      cases hfe : (t0 :: ts).filter (fun u => strContains (strLower r) u) with
      | nil =>
        rw [hfe] at hmem
        cases hmem
      | cons u us => rfl

/-- Witness for C8 at concrete inputs: toggling the result's case does not
change the verdict, and lowercase presence of library name and a term makes
the assertion succeed. -/
theorem C8_witness :
    (assert_library_in_result (some "use React tool") "React" ["react tool"] =
      assert_library_in_result (some "USE REACT TOOL") "React" ["react tool"])
    ∧ assert_library_in_result (some "use React tool") "React" ["react tool"] = true :=
  ⟨(C8_case_insensitive_presence "use React tool" "USE REACT TOOL" "React" ["react tool"]).1
      (by decide),
   (C8_case_insensitive_presence "use React tool" "USE REACT TOOL" "React" ["react tool"]).2
      (by decide) ⟨"react tool", by decide, by decide⟩⟩

/-- C9: given both process-count reads, `validate_process_cleanup` returns
`True` iff `final_count ≤ initial_count + 1`: one leftover process beyond the
initial count is tolerated, and any decrease passes as well. -/
theorem C9_process_cleanup_tolerance (i f : Int) :
    validate_process_cleanup (some i) (some f) = true ↔ f ≤ i + 1 := by
  by_cases h : f > i + 1
  · simp [validate_process_cleanup, h]
  · simp [validate_process_cleanup, h]
    omega

/-- C10: the API-key smoke test fails when the key is absent, and for a
present key passes exactly when the key is non-empty, starts with `sk-`, and
is longer than 20 characters. -/
theorem C10_api_key_format :
    test_smoke_openai_api_key none = false
    ∧ ∀ k : String, test_smoke_openai_api_key (some k) = true ↔
        (k ≠ "" ∧ strStartsWith k "sk-" = true ∧ 20 < k.length) := by
  refine ⟨rfl, fun k => ?_⟩
  by_cases h1 : k = "" <;> by_cases h2 : strStartsWith k "sk-" <;>
    simp [test_smoke_openai_api_key, h1, h2]

end Spec2Proof
